import Mathlib

/-
  Verification development for the streaming chat client
  (src/My_Study_Material/ao-chat-boot/chat.js).

  The embedding models JavaScript strings as lists of characters, the
  platform JSON.parse as an executable parser over that representation,
  and the ChatApp class as explicit state passing over a ChatState
  structure.  Network responses are modelled as an explicit FetchResult
  value consumed by the stream-processing loop.
-/

set_option maxHeartbeats 4000000
set_option maxRecDepth 10000

/-- JavaScript strings in the stream pipeline, modelled as lists of characters. -/
abbrev Str := List Char

/-- Whitespace characters removed by JavaScript String.prototype.trim
(the ASCII members of the WhiteSpace / LineTerminator productions). -/
def isJsWhitespace (c : Char) : Bool :=
  c = ' ' || c = '\t' || c = '\n' || c = '\r' || c = '\x0b' || c = '\x0c'

/-- Model of JavaScript String.prototype.trim: strip whitespace from both ends. -/
def jsTrim (s : Str) : Str :=
  ((s.dropWhile isJsWhitespace).reverse.dropWhile isJsWhitespace).reverse

/-- Fueled worker for jsSplit.  Scans left to right; at each position either
the separator matches (emit the accumulated piece, continue after the
separator) or one character is moved into the accumulator. -/
def jsSplitGo (sep : Str) : Nat → Str → Str → List Str
  | 0, s, cur => [cur.reverse ++ s]
  | fuel + 1, s, cur =>
    match s with
    | [] => [cur.reverse]
    | c :: rest =>
      if sep.isPrefixOf (c :: rest) then
        cur.reverse :: jsSplitGo sep fuel ((c :: rest).drop sep.length) []
      else
        jsSplitGo sep fuel rest (c :: cur)

/-- Model of JavaScript String.prototype.split with a non-empty string
separator: leftmost, non-overlapping matches; an empty input yields one
empty piece, matching JS semantics. -/
def jsSplit (sep : Str) (s : Str) : List Str :=
  jsSplitGo sep (s.length + 1) s []

/-- Model of JavaScript String.prototype.replace with a string pattern:
replaces only the first occurrence of the pattern. -/
def jsReplaceFirst : Nat → Str → Str → Str → Str → Str
  | 0, s, _, _, acc => acc.reverse ++ s
  | fuel + 1, s, pat, rep, acc =>
    match s with
    | [] => acc.reverse
    | c :: rest =>
      if pat.isPrefixOf (c :: rest) then
        acc.reverse ++ rep ++ (c :: rest).drop pat.length
      else
        jsReplaceFirst fuel rest pat rep (c :: acc)

/-- JSON values produced by JSON.parse.  Numbers keep their literal
numeral characters (no claim in this development depends on numeric
value semantics; only zero-ness, used for JS truthiness, matters). -/
inductive Json where
  | null : Json
  | boolean : Bool → Json
  | number : Str → Json
  | string : Str → Json
  | array : List Json → Json
  | object : List (Str × Json) → Json

/-- JSON insignificant whitespace (RFC 8259: space, tab, LF, CR). -/
def skipWs (s : Str) : Str :=
  s.dropWhile fun c => c = ' ' || c = '\t' || c = '\n' || c = '\r'

/-- Value of a hexadecimal digit, if the character is one. -/
def hexVal (c : Char) : Option Nat :=
  if '0' ≤ c ∧ c ≤ '9' then some (c.toNat - ('0').toNat)
  else if 'a' ≤ c ∧ c ≤ 'f' then some (c.toNat - ('a').toNat + 10)
  else if 'A' ≤ c ∧ c ≤ 'F' then some (c.toNat - ('A').toNat + 10)
  else none

/-- Parse the body of a JSON string literal (after the opening quote),
returning the decoded characters and the remaining input.  Handles the
JSON escape sequences; raw control characters are rejected, as in
JSON.parse. -/
def parseStringBody : Nat → Str → Option (Str × Str)
  | 0, _ => none
  | _ + 1, [] => none
  | fuel + 1, c :: rest =>
    if c = '"' then some ([], rest)
    else if c = '\\' then
      match rest with
      | [] => none
      | e :: r =>
        let dec : Option (Char × Str) :=
          if e = '"' then some ('"', r)
          else if e = '\\' then some ('\\', r)
          else if e = '/' then some ('/', r)
          else if e = 'n' then some ('\n', r)
          else if e = 't' then some ('\t', r)
          else if e = 'r' then some ('\r', r)
          else if e = 'b' then some ('\x08', r)
          else if e = 'f' then some ('\x0c', r)
          else if e = 'u' then
            match r with
            | h1 :: h2 :: h3 :: h4 :: r2 =>
              match hexVal h1, hexVal h2, hexVal h3, hexVal h4 with
              | some a, some b, some c2, some d =>
                some (Char.ofNat (((a * 16 + b) * 16 + c2) * 16 + d), r2)
              | _, _, _, _ => none
            | _ => none
          else none
        match dec with
        | none => none
        | some (ch, r2) =>
          match parseStringBody fuel r2 with
          | none => none
          | some (cs, rem) => some (ch :: cs, rem)
    else if c.toNat < 32 then none
    else
      match parseStringBody fuel rest with
      | none => none
      | some (cs, rem) => some (c :: cs, rem)

/-- Parse a JSON numeral per the RFC 8259 grammar, returning its literal
characters and the remaining input. -/
def parseNumberLit (s : Str) : Option (Str × Str) :=
  let signed : Str × Str :=
    match s with
    | '-' :: r => (['-'], r)
    | _ => ([], s)
  let sign := signed.1
  let s1 := signed.2
  let intPart := s1.takeWhile Char.isDigit
  let s2 := s1.dropWhile Char.isDigit
  if intPart = [] then none
  else if intPart.length > 1 ∧ intPart.headD '0' = '0' then none
  else
    let fracced : Option (Str × Str) :=
      match s2 with
      | '.' :: r =>
        let ds := r.takeWhile Char.isDigit
        if ds = [] then none else some ('.' :: ds, r.dropWhile Char.isDigit)
      | _ => some ([], s2)
    match fracced with
    | none => none
    | some (fracPart, s3) =>
      let exped : Option (Str × Str) :=
        match s3 with
        | e :: r =>
          if e = 'e' ∨ e = 'E' then
            let signedExp : Str × Str :=
              match r with
              | '+' :: r2 => (['+'], r2)
              | '-' :: r2 => (['-'], r2)
              | _ => ([], r)
            let ds := signedExp.2.takeWhile Char.isDigit
            if ds = [] then none
            else some (e :: signedExp.1 ++ ds, signedExp.2.dropWhile Char.isDigit)
          else some ([], s3)
        | [] => some ([], s3)
      match exped with
      | none => none
      | some (expPart, s4) => some (sign ++ intPart ++ fracPart ++ expPart, s4)

mutual

/-- Parse one JSON value (after optional leading whitespace), returning it
and the remaining input.  Fueled; the top-level entry point supplies fuel
bounding the nesting depth. -/
def parseJsonVal : Nat → Str → Option (Json × Str)
  | 0, _ => none
  | fuel + 1, s0 =>
    let s := skipWs s0
    match s with
    | [] => none
    | c :: rest =>
      if c = '"' then
        match parseStringBody (rest.length + 1) rest with
        | some (cs, rem) => some (Json.string cs, rem)
        | none => none
      else if c = '\x7b' then
        let s1 := skipWs rest
        match s1 with
        | '\x7d' :: r => some (Json.object [], r)
        | _ =>
          match parseFields fuel s1 with
          | some (fs, rem) => some (Json.object fs, rem)
          | none => none
      else if c = '[' then
        let s1 := skipWs rest
        match s1 with
        | ']' :: r => some (Json.array [], r)
        | _ =>
          match parseElems fuel s1 with
          | some (xs, rem) => some (Json.array xs, rem)
          | none => none
      else if c = 't' then
        if (['r', 'u', 'e'] : Str).isPrefixOf rest then
          some (Json.boolean true, rest.drop 3)
        else none
      else if c = 'f' then
        if (['a', 'l', 's', 'e'] : Str).isPrefixOf rest then
          some (Json.boolean false, rest.drop 4)
        else none
      else if c = 'n' then
        if (['u', 'l', 'l'] : Str).isPrefixOf rest then
          some (Json.null, rest.drop 3)
        else none
      else
        match parseNumberLit (c :: rest) with
        | some (lit, rem) => some (Json.number lit, rem)
        | none => none

/-- Parse the fields of a JSON object after its opening brace (at least one
field), including the closing brace. -/
def parseFields : Nat → Str → Option (List (Str × Json) × Str)
  | 0, _ => none
  | fuel + 1, s =>
    match skipWs s with
    | '"' :: rest =>
      match parseStringBody (rest.length + 1) rest with
      | none => none
      | some (key, rem1) =>
        match skipWs rem1 with
        | ':' :: rem2 =>
          match parseJsonVal fuel rem2 with
          | none => none
          | some (v, rem3) =>
            match skipWs rem3 with
            | ',' :: rem4 =>
              match parseFields fuel rem4 with
              | none => none
              | some (fs, rem5) => some ((key, v) :: fs, rem5)
            | '\x7d' :: rem4 => some ([(key, v)], rem4)
            | _ => none
        | _ => none
    | _ => none

/-- Parse the elements of a JSON array after its opening bracket (at least
one element), including the closing bracket. -/
def parseElems : Nat → Str → Option (List Json × Str)
  | 0, _ => none
  | fuel + 1, s =>
    match parseJsonVal fuel s with
    | none => none
    | some (v, rem) =>
      match skipWs rem with
      | ',' :: rem2 =>
        match parseElems fuel rem2 with
        | none => none
        | some (xs, rem3) => some (v :: xs, rem3)
      | ']' :: rem2 => some ([v], rem2)
      | _ => none

end

/-- Model of JSON.parse: parse one value, require only whitespace after it;
`none` models the SyntaxError thrown on malformed input. -/
def jsonParse (s : Str) : Option Json :=
  match parseJsonVal (s.length + 1) s with
  | none => none
  | some (v, rem) => if skipWs rem = [] then some v else none

/-- Property read on a JSON object: JavaScript keeps the last of duplicate
keys produced by JSON.parse, so the lookup returns the last binding. -/
def lookupField (fs : List (Str × Json)) (key : Str) : Option Json :=
  ((fs.filter fun p => p.1 = key).getLast?).map fun p => p.2

/-- JavaScript truthiness of a JSON.parse result (null, false, zero and the
empty string are falsy; arrays and objects are truthy). -/
def numIsZero (lit : Str) : Bool :=
  lit.all fun c => ¬ c.isDigit || c = '0'

/-- JavaScript truthiness of a value produced by JSON.parse. -/
def jsTruthy : Json → Bool
  | Json.null => false
  | Json.boolean b => b
  | Json.number lit => ¬ numIsZero lit
  | Json.string s => ¬ s.isEmpty
  | Json.array _ => true
  | Json.object _ => true

mutual

/-- JavaScript string coercion (as in fullResponse += token) of a value
produced by JSON.parse.  Numbers keep their parsed literal; arrays join
their coerced elements with commas; objects render as in JS. -/
def jsToPrimString : Json → Str
  | Json.string s => s
  | Json.number lit => lit
  | Json.boolean true => ("true").toList
  | Json.boolean false => ("false").toList
  | Json.null => ("null").toList
  | Json.array xs => jsToPrimStringList xs
  | Json.object _ => ("[object Object]").toList

/-- Comma-joined coercion of array elements, as JavaScript Array.toString. -/
def jsToPrimStringList : List Json → Str
  | [] => []
  | [x] => jsToPrimString x
  | x :: y :: xs => jsToPrimString x ++ ',' :: jsToPrimStringList (y :: xs)

end

/-- Optional-chaining property read (the `?.` steps in
data.choices[0]?.delta?.content): undefined and null short-circuit to
undefined; property reads on non-objects yield undefined. -/
def optProp (o : Option Json) (key : Str) : Option Json :=
  match o with
  | some (Json.object fs) => lookupField fs key
  | _ => none

/-- The token extraction `data.choices[0]?.delta?.content || ''` of
streamAIResponse.  `.error ()` models the TypeError thrown when
`data` is null or `data.choices` is undefined or null (the only
non-optional accesses); the error is caught by the surrounding try.
The result is the characters appended to fullResponse (empty when the
final value is falsy). -/
def tokenOf (data : Json) : Except Unit Str :=
  match data with
  | Json.null => Except.error ()
  | _ =>
    let choices : Option Json :=
      match data with
      | Json.object fs => lookupField fs (("choices").toList)
      | _ => none
    match choices with
    | none => Except.error ()
    | some Json.null => Except.error ()
    | some cv =>
      let elem0 : Option Json :=
        match cv with
        | Json.array xs => xs.get? 0
        | Json.object fs => lookupField fs (("0").toList)
        | Json.string s => s.head?.map fun c => Json.string [c]
        | _ => none
      let delta := optProp elem0 (("delta").toList)
      let content := optProp delta (("content").toList)
      Except.ok
        (match content with
          | some v => if jsTruthy v then jsToPrimString v else []
          | none => [])

/-- The record separator the stream loop splits each chunk on. -/
def recordSep : Str := ['\n', '\n']

/-- The `data: ` marker checked by line.startsWith. -/
def dataMarker : Str := ("data: ").toList

/-- The literal end-of-stream sentinel. -/
def doneSentinel : Str := ("[DONE]").toList

/-- Outcome of processing one record of a chunk in the stream loop. -/
inductive LineOutcome where
  | done : LineOutcome
  | skip : LineOutcome
  | yield : Str → LineOutcome
deriving DecidableEq

/-- One iteration of `for (const line of lines)` in streamAIResponse:
lines without the `data: ` marker are ignored; a trimmed `[DONE]` payload
breaks out of the loop over this chunk; a payload that fails JSON.parse,
or whose token extraction throws, is logged and skipped by the
try/catch; a falsy (empty) token is not appended. -/
def lineStep (line : Str) : LineOutcome :=
  if dataMarker.isPrefixOf line then
    let dataStr := line.drop 6
    if jsTrim dataStr = doneSentinel then LineOutcome.done
    else
      match jsonParse dataStr with
      | none => LineOutcome.skip
      | some data =>
        match tokenOf data with
        | Except.error _ => LineOutcome.skip
        | Except.ok token => if token = [] then LineOutcome.skip else LineOutcome.yield token
  else LineOutcome.skip

/-- The inner loop of streamAIResponse over the records of one chunk,
threading fullResponse.  A `[DONE]` record stops processing of the
current chunk only (the `break` statement leaves the for-loop, not the
enclosing while-loop). -/
def processLines : List Str → Str → Str
  | [], acc => acc
  | l :: ls, acc =>
    match lineStep l with
    | LineOutcome.done => acc
    | LineOutcome.skip => processLines ls acc
    | LineOutcome.yield t => processLines ls (acc ++ t)

/-- The outer `while (true)` read loop of streamAIResponse: each received
chunk is decoded and split on the blank-line delimiter independently,
and its records are folded into fullResponse. -/
def processChunks : List Str → Str → Str
  | [], acc => acc
  | chunk :: cs, acc => processChunks cs (processLines (jsSplit recordSep chunk) acc)

/-- The fragment a record contributes to fullResponse (empty for records
that are skipped or end the chunk). -/
def lineYield (l : Str) : Str :=
  match lineStep l with
  | LineOutcome.yield t => t
  | _ => []

/-- Concatenation of the fragments contributed by a list of records. -/
def yieldsConcat : List Str → Str
  | [] => []
  | l :: ls => lineYield l ++ yieldsConcat ls

/-- Message roles used by the chat client. -/
inductive Role where
  | system : Role
  | user : Role
  | assistant : Role
deriving DecidableEq

/-- An entry of this.messages: role, content and capture-time timestamp. -/
structure Message where
  role : Role
  content : String
  timestamp : Nat
deriving DecidableEq

/-- A message bubble of the chatMessages container; `source` is the text the
bubble renders (the rendered innerHTML is the deterministic marked.parse
image of it, so the source determines the visible content). -/
structure Bubble where
  role : Role
  source : String
deriving DecidableEq

/-- The mutable fields of the ChatApp instance and the DOM it drives:
the message log, the busy flag, the input field value, the send button and
typing indicator state, the message container, and the two configuration
inputs. -/
structure ChatState where
  messages : List Message
  isTyping : Bool
  inputValue : String
  sendButtonDisabled : Bool
  typingVisible : Bool
  chatDOM : List Bubble
  lmStudioUrl : String
  modelName : String
deriving DecidableEq

/-- The state built by the ChatApp constructor (empty log, not busy). -/
def initialState : ChatState :=
  { messages := []
    isTyping := false
    inputValue := String.mk []
    sendButtonDisabled := false
    typingVisible := false
    chatDOM := []
    lmStudioUrl := String.mk []
    modelName := String.mk [] }

/-- ChatApp.addMessage: optionally push a {content, role, timestamp} record
onto this.messages, and always append a rendered bubble to the container. -/
def addMessage (s : ChatState) (content : String) (role : Role) (now : Nat)
    (addToHistory : Bool) : ChatState :=
  { s with
      messages := if addToHistory then s.messages ++ [⟨role, content, now⟩] else s.messages
      chatDOM := s.chatDOM ++ [⟨role, content⟩] }

/-- ChatApp.showTypingIndicator: set the busy flag, disable the send button,
show the indicator. -/
def showTypingIndicator (s : ChatState) : ChatState :=
  { s with isTyping := true, sendButtonDisabled := true, typingVisible := true }

/-- ChatApp.hideTypingIndicator: clear the busy flag, re-enable the send
button, hide the indicator. -/
def hideTypingIndicator (s : ChatState) : ChatState :=
  { s with isTyping := false, sendButtonDisabled := false, typingVisible := false }

/-- The fixed system instruction prepended to every request. -/
def systemPrompt : String :=
  "You are Jarvis, a helpful AI assistant. Be concise, friendly, and helpful in your responses."

/-- The apology message appended on a caught error in sendMessage. -/
def errorText : String :=
  "Sorry, I encountered an error. Please check your LM Studio connection."

/-- The seeded greeting shown by clearChat. -/
def greetingText : String :=
  "Hello! I\x27m Jarvis, powered by LM Studio. How can I help you today?"

/-- The endpoint base URL, defaulting when the input field is empty
(`this.lmStudioUrl.value || ...`). -/
def urlOf (s : ChatState) : String :=
  if s.lmStudioUrl.isEmpty then "http://localhost:1234" else s.lmStudioUrl

/-- The model identifier, defaulting when the input field is empty
(`this.modelName.value || ...`). -/
def modelOf (s : ChatState) : String :=
  if s.modelName.isEmpty then "default" else s.modelName

/-- The JSON request payload of streamAIResponse (the temperature constant
0.7 is a float literal and carries no claim content, so it is not
modelled as a field). -/
structure RequestBody where
  endpoint : String
  model : String
  reqMessages : List (Role × String)
  maxTokens : Nat
  stream : Bool
deriving DecidableEq

/-- The requestBody built by streamAIResponse: the fixed system instruction
followed by the {role, content} projection of the full message log, posted
to `${url}/v1/chat/completions`. -/
def buildRequestBody (s : ChatState) : RequestBody :=
  { endpoint := urlOf s ++ "/v1/chat/completions"
    model := modelOf s
    reqMessages := (Role.system, systemPrompt) :: (s.messages.map fun m => (m.role, m.content))
    maxTokens := 1000
    stream := true }

/-- The network outcome of the fetch call: a rejected fetch, or a response
with its ok flag, status, and the byte chunks its body reader yields. -/
inductive FetchResult where
  | netError : FetchResult
  | response : Bool → Nat → List Str → FetchResult

/-- ChatApp.streamAIResponse, as a function of the state and the network
outcome.  Returns the built request body and either the post-stream state
or (via `Except.error`) the state at the point an exception is thrown:
a rejected fetch or a non-ok status throws before any state change.  On
success: an empty assistant bubble is created (not added to history), the
typing indicator is hidden, the chunks are folded into fullResponse
(rendered into the bubble as it grows), and a non-empty fullResponse is
pushed onto this.messages as the committed assistant message. -/
def streamAIResponse (s : ChatState) (r : FetchResult) (now : Nat) :
    RequestBody × Except ChatState ChatState :=
  let requestBody := buildRequestBody s
  match r with
  | FetchResult.netError => (requestBody, Except.error s)
  | FetchResult.response ok _ chunks =>
    if ok = false then (requestBody, Except.error s)
    else
      let s1 := addMessage s (String.mk []) Role.assistant now false
      let s2 := hideTypingIndicator s1
      let full := processChunks chunks []
      let s3 :=
        if full = [] then s2
        else
          { s2 with
              messages := s2.messages ++ [⟨Role.assistant, String.mk full, now⟩]
              chatDOM := s2.chatDOM.dropLast ++ [⟨Role.assistant, String.mk full⟩] }
      (requestBody, Except.ok s3)

/-- ChatApp.sendMessage, as a function of the state and the network outcome.
Returns the new state and the request body handed to fetch (`none` when the
guard makes the call a no-op and no request is issued).  An exception from
streamAIResponse is caught: the typing indicator is hidden and the apology
message is appended as an assistant history entry. -/
def sendMessage (s : ChatState) (r : FetchResult) (now : Nat) :
    ChatState × Option RequestBody :=
  let message := String.mk (jsTrim s.inputValue.toList)
  if jsTrim s.inputValue.toList = [] ∨ s.isTyping = true then (s, none)
  else
    let s1 := addMessage s message Role.user now true
    let s2 := { s1 with inputValue := String.mk [] }
    let s3 := showTypingIndicator s2
    match streamAIResponse s3 r now with
    | (req, Except.ok s4) => (s4, some req)
    | (req, Except.error sErr) =>
      (addMessage (hideTypingIndicator sErr) errorText Role.assistant now true, some req)

/-- ChatApp.clearChat: this.messages becomes empty, and the container is
replaced with a single seeded assistant greeting bubble (the greeting is
written only to the DOM, not to this.messages). -/
def clearChat (s : ChatState) : ChatState :=
  { s with messages := [], chatDOM := [⟨Role.assistant, greetingText⟩] }

/-- A `pre > code` region of a committed render target, as observed by
highlightCodeBlocks: the code element class attribute, its text content,
whether highlight.js has processed it, and the children appended to the
pre element (copy buttons and language indicators). -/
structure PreBlock where
  className : String
  codeText : String
  highlighted : Bool
  copyButtons : Nat
  langIndicators : List String
deriving DecidableEq

/-- Model of hljs.highlightElement: the rewritten markup is a deterministic
function of the element text content, which highlighting preserves
(highlight.js reads textContent and writes innerHTML), and the element is
marked as highlighted; calling it again therefore leaves the block's
visible state unchanged. -/
def hljsHighlightElement (b : PreBlock) : PreBlock :=
  if b.highlighted then b else { b with highlighted := true }

/-- The language tag computed for the indicator:
`codeBlock.className.split(' ')[0].replace('language-', '')`. -/
def langOf (className : Str) : Str :=
  let first := (jsSplit [' '] className).headD []
  jsReplaceFirst (first.length + 1) first (("language-").toList) [] []

/-- The body of the forEach in highlightCodeBlocks: highlight the block,
then — unless the pre element already has a copy button — append a
language indicator and a copy button. -/
def highlightBlockStep (b : PreBlock) : PreBlock :=
  let b1 := hljsHighlightElement b
  if b1.copyButtons ≠ 0 then b1
  else
    { b1 with
        langIndicators := b1.langIndicators ++ [String.mk (langOf b1.className.toList)]
        copyButtons := b1.copyButtons + 1 }

/-- ChatApp.highlightCodeBlocks: apply the finalization step to every
`pre code` region of the container. -/
def highlightCodeBlocks (blocks : List PreBlock) : List PreBlock :=
  blocks.map highlightBlockStep

/-
  Concrete inputs used to settle the claims.
-/

/-- A well-formed streamed record carrying the delta fragment "X". -/
def xRecord : Str :=
  ("data: \x7b\"choices\":[\x7b\"delta\":\x7b\"content\":\"X\"\x7d\x7d]\x7d").toList

/-- A well-formed streamed record carrying the delta fragment "A". -/
def recA : Str :=
  ("data: \x7b\"choices\":[\x7b\"delta\":\x7b\"content\":\"A\"\x7d\x7d]\x7d").toList

/-- A well-formed streamed record carrying the delta fragment "B". -/
def recB : Str :=
  ("data: \x7b\"choices\":[\x7b\"delta\":\x7b\"content\":\"B\"\x7d\x7d]\x7d").toList

/-- A record whose payload is the end-of-stream sentinel. -/
def doneRecord : Str := ("data: [DONE]").toList

/-- A record whose payload is deliberately malformed JSON. -/
def badRecord : Str := ("data: \x7b\"bad json\"").toList

/-- The four network chunks of the spec's streaming scenario: three delta
fragments and the end sentinel, each as one SSE chunk. -/
def helloChunks : List Str :=
  [("data: \x7b\"choices\":[\x7b\"delta\":\x7b\"content\":\"Hel\"\x7d\x7d]\x7d\n\n").toList,
   ("data: \x7b\"choices\":[\x7b\"delta\":\x7b\"content\":\"lo, \"\x7d\x7d]\x7d\n\n").toList,
   ("data: \x7b\"choices\":[\x7b\"delta\":\x7b\"content\":\"world!\"\x7d\x7d]\x7d\n\n").toList,
   ("data: [DONE]\n\n").toList]

/-- A state with prior conversation contents, used to exercise clearChat. -/
def exampleState : ChatState :=
  { initialState with
      messages := [⟨Role.user, "hi", 0⟩, ⟨Role.assistant, "hello", 1⟩],
      chatDOM := [⟨Role.user, "hi"⟩, ⟨Role.assistant, "hello"⟩] }

/-- A state with a response in flight (isTyping set). -/
def busyState : ChatState :=
  { initialState with
      isTyping := true, sendButtonDisabled := true, typingVisible := true,
      inputValue := "another question" }

/-- An idle state with a non-blank draft in the input field. -/
def readyState : ChatState :=
  { initialState with inputValue := "Hi" }

/-- An idle state whose input field holds only whitespace. -/
def wsState : ChatState :=
  { initialState with inputValue := "   " }

/-- A freshly rendered fenced code region, before finalization. -/
def freshBlock : PreBlock :=
  { className := "language-js"
    codeText := "console.log(1)"
    highlighted := false
    copyButtons := 0
    langIndicators := [] }

/-- Append a sequence of messages to the log through ChatApp.addMessage
(the append operation of Conversation State). -/
def appendMany (s : ChatState) (items : List (Role × String × Nat)) : ChatState :=
  items.foldl (fun st i => addMessage st i.2.1 i.1 i.2.2 true) s

/-
  Helper lemmas about the stream-processing loop and the state model.
-/

/-- A chunk none of whose records is the end sentinel contributes exactly
the concatenation of its records' fragments, in order. -/
theorem processLines_eq (ls : List Str) :
    ∀ acc : Str, (∀ l ∈ ls, lineStep l ≠ LineOutcome.done) →
      processLines ls acc = acc ++ yieldsConcat ls := by
  induction ls with
  | nil => intro acc _; simp [processLines, yieldsConcat]
  | cons l ls ih =>
    intro acc h
    have hl := h l (List.mem_cons_self l ls)
    have hls : ∀ x ∈ ls, lineStep x ≠ LineOutcome.done :=
      fun x hx => h x (List.mem_cons_of_mem l hx)
    cases hstep : lineStep l with
    | done => exact absurd hstep hl
    | skip =>
      simp only [processLines, hstep, yieldsConcat, lineYield]
      rw [ih acc hls]
      simp
    | yield t =>
      simp only [processLines, hstep, yieldsConcat, lineYield]
      rw [ih (acc ++ t) hls, List.append_assoc]

/-- Fragment concatenation distributes over record-list append. -/
theorem yieldsConcat_append (a b : List Str) :
    yieldsConcat (a ++ b) = yieldsConcat a ++ yieldsConcat b := by
  induction a with
  | nil => simp [yieldsConcat]
  | cons x xs ih => simp [yieldsConcat, ih, List.append_assoc]

/-- The per-block finalization step of highlightCodeBlocks is idempotent:
a second pass finds the block highlighted and the copy button present and
changes nothing. -/
theorem highlightBlockStep_idem (b : PreBlock) :
    highlightBlockStep (highlightBlockStep b) = highlightBlockStep b := by
  rcases b with ⟨cn, ct, hl, cb, li⟩
  cases hl <;> rcases cb with _ | n <;>
    simp [highlightBlockStep, hljsHighlightElement]

/-- The finalization step always leaves the block highlighted. -/
theorem highlightBlockStep_highlighted (b : PreBlock) :
    (highlightBlockStep b).highlighted = true := by
  rcases b with ⟨cn, ct, hl, cb, li⟩
  cases hl <;> rcases cb with _ | n <;>
    simp [highlightBlockStep, hljsHighlightElement]

/-- The finalization step attaches exactly one copy button to a block that
has none. -/
theorem highlightBlockStep_copy (b : PreBlock) (h : b.copyButtons = 0) :
    (highlightBlockStep b).copyButtons = 1 := by
  rcases b with ⟨cn, ct, hl, cb, li⟩
  simp only at h
  subst h
  cases hl <;> simp [highlightBlockStep, hljsHighlightElement]

/-- Appending messages through addMessage extends the log in order with the
given role/content pairs, unchanged. -/
theorem appendMany_messages (items : List (Role × String × Nat)) :
    ∀ s : ChatState, (appendMany s items).messages
      = s.messages ++ items.map fun i => (⟨i.1, i.2.1, i.2.2⟩ : Message) := by
  induction items with
  | nil => intro s; simp [appendMany]
  | cons i its ih =>
    intro s
    have h1 : appendMany s (i :: its) = appendMany (addMessage s i.2.1 i.1 i.2.2 true) its := rfl
    rw [h1, ih]
    simp [addMessage]

/-
  The claims.
-/

/-- Claim C1, counterexample: starting from a state with prior conversation
contents, clearChat leaves the message log empty — it does not contain
exactly one seeded assistant greeting message, so a subsequent snapshot
does not return that message. -/
theorem claimC1_counterexample : (clearChat exampleState).messages.length ≠ 1 := by
  decide

/-- Claim C1 (amended): after clearChat, regardless of the prior contents,
the message log is empty (a subsequent snapshot returns no messages);
the seeded assistant greeting exists only in the rendered chat container,
which shows exactly that one greeting bubble. -/
theorem claimC1_amended (s : ChatState) :
    (clearChat s).messages = [] ∧
    (clearChat s).chatDOM = [⟨Role.assistant, greetingText⟩] :=
  ⟨rfl, rfl⟩

/-- Claim C2, counterexample: the break on the `[DONE]` record leaves only
the loop over the current chunk, so a well-formed record arriving in a
subsequently received chunk still has its fragment appended to the
response buffer: processing the sentinel chunk followed by a chunk
carrying the fragment "X" yields "X", not the empty buffer the claim
requires. -/
theorem claimC2_counterexample :
    processChunks [doneRecord, xRecord] [] = [('X' : Char)] ∧
    ([('X' : Char)] : Str) ≠ [] :=
  ⟨by decide, by decide⟩

/-- Claim C2 (amended): once a record whose payload is the literal sentinel
`[DONE]` has been processed, no record occurring later in the same chunk
contributes a fragment to the response buffer; records in subsequently
received chunks are still processed (in practice the server closes the
stream after the sentinel, so the read loop ends). -/
theorem claimC2_amended (l : Str) (post : List Str) (acc : Str)
    (h : lineStep l = LineOutcome.done) :
    processLines (l :: post) acc = acc := by
  simp [processLines, h]

/-- Witness for the amended claim C2 at the concrete sentinel record. -/
theorem claimC2_amended_witness :
    (lineStep doneRecord = LineOutcome.done) ∧
    processLines (doneRecord :: [xRecord]) [] = [] :=
  ⟨by decide, claimC2_amended doneRecord [xRecord] [] (by decide)⟩

/-- Claim C3: the code-block finalization pass is idempotent — running it
twice over the same committed render target equals running it once; every
region is left highlighted, and a region without a copy affordance gets
exactly one. -/
theorem claimC3 (blocks : List PreBlock) :
    highlightCodeBlocks (highlightCodeBlocks blocks) = highlightCodeBlocks blocks ∧
    ∀ b ∈ blocks, (highlightBlockStep b).highlighted = true ∧
      (b.copyButtons = 0 → (highlightBlockStep b).copyButtons = 1) := by
  constructor
  · unfold highlightCodeBlocks
    rw [List.map_map]
    exact List.map_congr_left fun b _ => highlightBlockStep_idem b
  · intro b _
    exact ⟨highlightBlockStep_highlighted b, fun h => highlightBlockStep_copy b h⟩

/-- Witness for claim C3 at a concrete fresh code region. -/
theorem claimC3_witness :
    (highlightCodeBlocks (highlightCodeBlocks [freshBlock]) = highlightCodeBlocks [freshBlock]) ∧
    ((highlightBlockStep freshBlock).highlighted = true ∧
      (freshBlock.copyButtons = 0 → (highlightBlockStep freshBlock).copyButtons = 1)) :=
  ⟨(claimC3 [freshBlock]).1,
   (claimC3 [freshBlock]).2 freshBlock (List.mem_cons_self freshBlock [])⟩

/-- Claim C4: a record that fails to parse as JSON, interleaved between
records that are not the end sentinel, is skipped: the stream-parsing loop
continues (no error escapes — processing is total), and the buffer ends
as the concatenation of the surrounding records' fragments only, the
malformed record contributing nothing. -/
theorem claimC4 (pre post : List Str) (bad : Str) (acc : Str)
    (hmark : dataMarker.isPrefixOf bad = true)
    (hnotdone : jsTrim (bad.drop 6) ≠ doneSentinel)
    (hparse : (jsonParse (bad.drop 6)).isNone = true)
    (hpre : ∀ l ∈ pre, lineStep l ≠ LineOutcome.done)
    (hpost : ∀ l ∈ post, lineStep l ≠ LineOutcome.done) :
    lineStep bad = LineOutcome.skip ∧
    processLines (pre ++ bad :: post) acc = acc ++ yieldsConcat pre ++ yieldsConcat post := by
  have hbad : lineStep bad = LineOutcome.skip := by
    unfold lineStep
    simp [hmark, hnotdone, Option.isNone_iff_eq_none.mp hparse]
  refine ⟨hbad, ?_⟩
  have hall : ∀ l ∈ pre ++ bad :: post, lineStep l ≠ LineOutcome.done := by
    intro l hl
    rcases List.mem_append.mp hl with h | h
    · exact hpre l h
    · rcases List.mem_cons.mp h with rfl | h2
      · simp [hbad]
      · exact hpost l h2
  rw [processLines_eq _ acc hall, yieldsConcat_append]
  simp [yieldsConcat, lineYield, hbad, List.append_assoc]

/-- Witness for claim C4: the spec's deliberately malformed record between
two well-formed records. -/
theorem claimC4_witness :
    (dataMarker.isPrefixOf badRecord = true) ∧
    (jsTrim (badRecord.drop 6) ≠ doneSentinel) ∧
    ((jsonParse (badRecord.drop 6)).isNone = true) ∧
    (lineStep badRecord = LineOutcome.skip ∧
      processLines ([recA] ++ badRecord :: [recB]) []
        = [] ++ yieldsConcat [recA] ++ yieldsConcat [recB]) :=
  ⟨by decide, by decide, by decide,
   claimC4 [recA] [recB] badRecord [] (by decide) (by decide) (by decide)
     (by decide) (by decide)⟩

/-- Claim C5: for the streamed fragment sequence "Hel", "lo, ", "world!",
terminated by the end sentinel, the completed exchange commits exactly one
assistant message whose content is the in-order concatenation
"Hello, world!". -/
theorem claimC5 (s : ChatState) (now : Nat) :
    ((streamAIResponse s (FetchResult.response true 200 helloChunks) now).2).toOption.map
        ChatState.messages
      = some (s.messages ++ [⟨Role.assistant, "Hello, world!", now⟩]) := by
  have h : processChunks helloChunks [] = ("Hello, world!").toList := by decide
  simp [streamAIResponse, addMessage, hideTypingIndicator, h]
  exact ⟨_, rfl, rfl⟩

/-- Claim C6: while a response is in flight (isTyping is true), sendMessage
is a no-op — the state (log, flags, DOM) is unchanged and no request body
is handed to fetch, so no second concurrent stream is started. -/
theorem claimC6 (s : ChatState) (r : FetchResult) (now : Nat)
    (h : s.isTyping = true) :
    sendMessage s r now = (s, none) := by
  simp [sendMessage, h]

/-- Witness for claim C6 at a concrete busy state. -/
theorem claimC6_witness :
    (busyState.isTyping = true) ∧
    sendMessage busyState FetchResult.netError 0 = (busyState, none) :=
  ⟨rfl, claimC6 busyState FetchResult.netError 0 rfl⟩

/-- Claim C7: when the endpoint returns a non-success status, sendMessage
catches the thrown error at top level: exactly one assistant-role error
message is appended after the user message, the busy flag returns to
false, and the send button is re-enabled. -/
theorem claimC7 (s : ChatState) (status : Nat) (chunks : List Str) (now : Nat)
    (hbusy : s.isTyping = false)
    (hmsg : jsTrim s.inputValue.toList ≠ []) :
    (sendMessage s (FetchResult.response false status chunks) now).1.messages
        = s.messages ++ [⟨Role.user, String.mk (jsTrim s.inputValue.toList), now⟩,
                         ⟨Role.assistant, errorText, now⟩] ∧
    (sendMessage s (FetchResult.response false status chunks) now).1.isTyping = false ∧
    (sendMessage s (FetchResult.response false status chunks) now).1.sendButtonDisabled = false := by
  have hmsg2 : jsTrim s.inputValue.data ≠ [] := hmsg
  refine ⟨?_, ?_, ?_⟩ <;>
    simp [sendMessage, streamAIResponse, addMessage, showTypingIndicator,
      hideTypingIndicator, hbusy, hmsg2]

/-- Witness for claim C7: HTTP 500 from an idle state with a drafted
message. -/
theorem claimC7_witness :
    (readyState.isTyping = false) ∧
    (jsTrim readyState.inputValue.toList ≠ []) ∧
    ((sendMessage readyState (FetchResult.response false 500 []) 0).1.messages
        = readyState.messages ++
            [⟨Role.user, String.mk (jsTrim readyState.inputValue.toList), 0⟩,
             ⟨Role.assistant, errorText, 0⟩] ∧
      (sendMessage readyState (FetchResult.response false 500 []) 0).1.isTyping = false ∧
      (sendMessage readyState (FetchResult.response false 500 []) 0).1.sendButtonDisabled = false) :=
  ⟨rfl, by decide, claimC7 readyState 500 [] 0 rfl (by decide)⟩

/-- Claim C8: for every sequence of messages appended to the log, the
snapshot used to build the request payload returns them in exact insertion
order with role and content unchanged, prefixed by the fixed system
instruction. -/
theorem claimC8 (items : List (Role × String × Nat)) :
    (appendMany initialState items).messages
        = items.map (fun i => (⟨i.1, i.2.1, i.2.2⟩ : Message)) ∧
    (buildRequestBody (appendMany initialState items)).reqMessages
        = (Role.system, systemPrompt) :: items.map fun i => (i.1, i.2.1) := by
  have h := appendMany_messages items initialState
  constructor
  · rw [h]
    simp [initialState]
  · show (buildRequestBody (appendMany initialState items)).reqMessages = _
    unfold buildRequestBody
    rw [h]
    simp [initialState, List.map_map]

/-- Claim C9: for an input that trims to empty, sendMessage is a no-op —
no message is appended, no state changes, and no request body is handed
to fetch. -/
theorem claimC9 (s : ChatState) (r : FetchResult) (now : Nat)
    (h : jsTrim s.inputValue.toList = []) :
    sendMessage s r now = (s, none) := by
  have h2 : jsTrim s.inputValue.data = [] := h
  simp [sendMessage, h2]

/-- Witness for claim C9 at a whitespace-only input field. -/
theorem claimC9_witness :
    (jsTrim wsState.inputValue.toList = []) ∧
    sendMessage wsState FetchResult.netError 0 = (wsState, none) :=
  ⟨by decide, claimC9 wsState FetchResult.netError 0 (by decide)⟩

/-- Claim C10: when a single `data: ` record is split at any interior point
across two consecutive chunks, neither partial piece is parsed as a
complete record — each is skipped (failing the marker check or JSON
parsing) — so the split record's delta content never reaches the buffer,
while surrounding records in both chunks contribute exactly their own
fragments and no error is propagated (processing is total). -/
theorem claimC10 (k : Nat) (hk : k < xRecord.length) (h0 : 0 < k)
    (pre post : List Str) (acc1 acc2 : Str)
    (hpre : ∀ l ∈ pre, lineStep l ≠ LineOutcome.done)
    (hpost : ∀ l ∈ post, lineStep l ≠ LineOutcome.done) :
    lineStep (xRecord.take k) = LineOutcome.skip ∧
    lineStep (xRecord.drop k) = LineOutcome.skip ∧
    processLines (pre ++ [xRecord.take k]) acc1 = acc1 ++ yieldsConcat pre ∧
    processLines (xRecord.drop k :: post) acc2 = acc2 ++ yieldsConcat post := by
  have hsk : ∀ k2, k2 < xRecord.length → 0 < k2 →
      lineStep (xRecord.take k2) = LineOutcome.skip ∧
      lineStep (xRecord.drop k2) = LineOutcome.skip := by decide
  obtain ⟨h1, h2⟩ := hsk k hk h0
  refine ⟨h1, h2, ?_, ?_⟩
  · have hall : ∀ l ∈ pre ++ [xRecord.take k], lineStep l ≠ LineOutcome.done := by
      intro l hl
      rcases List.mem_append.mp hl with h | h
      · exact hpre l h
      · rcases List.mem_cons.mp h with rfl | h2b
        · simp [h1]
        · exact absurd h2b (List.not_mem_nil l)
    rw [processLines_eq _ acc1 hall, yieldsConcat_append]
    simp [yieldsConcat, lineYield, h1]
  · have hall2 : ∀ l ∈ xRecord.drop k :: post, lineStep l ≠ LineOutcome.done := by
      intro l hl
      rcases List.mem_cons.mp hl with rfl | h2b
      · simp [h2]
      · exact hpost l h2b
    rw [processLines_eq _ acc2 hall2]
    simp [yieldsConcat, lineYield, h2]

/-- Witness for claim C10 at a concrete split position inside the payload,
with a valid record before and after the split pieces. -/
theorem claimC10_witness :
    (7 < xRecord.length) ∧ (0 < 7) ∧
    (lineStep (xRecord.take 7) = LineOutcome.skip ∧
     lineStep (xRecord.drop 7) = LineOutcome.skip ∧
     processLines ([recA] ++ [xRecord.take 7]) [] = [] ++ yieldsConcat [recA] ∧
     processLines (xRecord.drop 7 :: [recB]) [] = [] ++ yieldsConcat [recB]) :=
  ⟨by decide, by decide,
   claimC10 7 (by decide) (by decide) [recA] [recB] [] [] (by decide) (by decide)⟩
